import Mathlib

/-!
Shallow embedding of the conversation-orchestration core of the mcp-client
repository, together with theorems checking the natural-language
specification against it.

Embedded source files:
- src/src/mcp_client/chat_processor.py  (ChatProcessor.process_query and
  the private tool-calling loop `_execute_with_tools`)
- src/src/mcp_client/llm_client.py      (LLMClient: message store,
  chat_completion, clear_history)
- src/src/mcp_client/tool_manager.py    (ToolManager: get_tools_for_openai,
  format_tool_result)
- src/client.py                          (MCPClient.process_query_from_messages
  and MCPClient.clear_chat_history)

External boundaries (the OpenAI/OpenRouter chat API, the MCP provider
session, and Python's json.loads) are modelled as oracle inputs:
the model's successive replies are a script consumed one reply per
gateway call (an exhausted or errored entry models a raised
ModelGatewayError), json.loads is a partial function (None models a
raised JSONDecodeError), and call_tool is a total function returning a
result record with `content` and `isError` fields, matching the MCP
protocol in which provider tool-execution failures are reported in-band
on the result rather than raised.  Structured argument mappings and tool
result payloads are opaque to the repository code (it only passes them
along and formats them), so they are modelled by their display strings.
-/

deriving instance DecidableEq for Except

/-- Opaque structured argument mapping (a decoded JSON object).  The
repository code never inspects its entries; it only passes it to the
provider and interpolates its display form into a trace line, so it is
modelled by that display form. -/
structure ArgsMap where
  display : String
deriving DecidableEq

/-- Arguments of a tool call as they arrive from the model API:
either string-encoded JSON text or an already-structured mapping
(chat_processor.py handles both via `isinstance(tool_args, str)`). -/
inductive ToolArgs where
  | text (s : String)
  | structured (d : ArgsMap)
deriving DecidableEq

/-- One tool-call request inside an assistant reply: `tool_call.id`,
`tool_call.function.name`, `tool_call.function.arguments`. -/
structure ToolCall where
  id : String
  name : String
  arguments : ToolArgs
deriving DecidableEq

/-- One transcript entry as the Python code stores it: a dict with a
`role` string, optional `content`, optional `tool_call_id` (tool
messages), and the `tool_calls` list (assistant message dumps; the
empty list also stands for Python `None`). -/
structure Message where
  role : String
  content : Option String
  tool_call_id : Option String
  tool_calls : List ToolCall
deriving DecidableEq

/-- The assistant message inside a chat-completion response
(`response.choices[0].message`): text content (nullable) and the
requested tool calls (the empty list also stands for Python `None`,
which the code treats identically via truthiness). -/
structure AssistantMessage where
  content : Option String
  tool_calls : List ToolCall
deriving DecidableEq

/-- Serialization of an assistant message appended to the transcript,
`assistant_message.model_dump()`: role `assistant` with the content and
the tool-call requests verbatim. -/
def AssistantMessage.model_dump (m : AssistantMessage) : Message :=
  ⟨"assistant", m.content, none, m.tool_calls⟩

/-- Result of one provider tool invocation as seen by the client:
`result.content` (already stringified, since the code only ever uses
`str(result.content)`) and the MCP `isError` flag, which chat_processor.py
never reads. -/
structure ToolResult where
  content : String
  isError : Bool
deriving DecidableEq

/-- A provider-advertised tool as returned by `session.list_tools()`:
name, description, inputSchema (the schema payload is opaque to the
client, which forwards it verbatim). -/
structure MCPTool where
  name : String
  description : String
  inputSchema : String
deriving DecidableEq

/-- The `function` part of the OpenAI function-calling schema built by
ToolManager.get_tools_for_openai. -/
structure OpenAIFunction where
  name : String
  description : String
  parameters : String
deriving DecidableEq

/-- One entry of the OpenAI `tools` parameter:
`{"type": "function", "function": {...}}`. -/
structure OpenAITool where
  type : String
  function : OpenAIFunction
deriving DecidableEq

/-- ToolManager.get_tools_for_openai: maps each provider tool to the
OpenAI function-calling schema shape, name/description/schema verbatim. -/
def ToolManager.get_tools_for_openai (tools : List MCPTool) : List OpenAITool :=
  tools.map (fun t => ⟨"function", ⟨t.name, t.description, t.inputSchema⟩⟩)

/-- ToolManager.format_tool_result: the human-readable trace line
appended to the accumulated output for each tool call.  The Python
f-string interpolates the parsed argument mapping; the `result`
parameter is accepted but unused, exactly as in the source. -/
def ToolManager.format_tool_result (tool_name : String) (arguments : ArgsMap)
    (_result : ToolResult) : String :=
  "[Calling tool " ++ tool_name ++ " with args " ++ arguments.display ++ "]"

/-- Observable events of one orchestration run, in order: each
chat-completion request issued to the model gateway (with the model
identifier, the transcript snapshot sent, and the tools parameter, where
`none` is Python `None`, i.e. the field is omitted), and each tool
invocation dispatched to the provider. -/
inductive Event where
  | gateway (model : String) (messages : List Message) (tools : Option (List OpenAITool))
  | invoke (name : String) (args : ArgsMap)
deriving DecidableEq

/-- External-world oracles: the provider's tool listing (an error models
a raised exception, e.g. the session not being connected), Python's
json.loads on tool-argument text (none models a raised JSONDecodeError),
and the provider's call_tool. -/
structure Env where
  listTools : Except String (List MCPTool)
  jsonLoads : String → Option ArgsMap
  callTool : String → ArgsMap → ToolResult

/-- State threaded through the orchestration loop: the model identifier
(`LLMClient.model`), the shared transcript (`self.messages`, mutated in
place in Python and therefore preserved across exceptions), the
accumulated output segments (`final_text`), the event trace, and the
remaining scripted gateway replies. -/
structure LoopState where
  model : String
  messages : List Message
  finalText : List String
  trace : List Event
  replies : List (Except String AssistantMessage)

/-- Python truthiness of the `tools` argument in
LLMClient.chat_completion: `tools if tools else None` — an empty list
becomes `None` (the parameter is omitted). -/
def toolsParam (tools : List OpenAITool) : Option (List OpenAITool) :=
  if tools.isEmpty then none else some tools

/-- One chat-completion request: records the gateway event (the request
is issued with the current transcript) and consumes the next scripted
reply; an errored or exhausted script models a raised gateway error. -/
def gatewayCall (model : String) (tools : List OpenAITool) (st : LoopState) :
    Except String AssistantMessage × LoopState :=
  let st1 : LoopState :=
    { st with trace := st.trace ++ [Event.gateway model st.messages (toolsParam tools)] }
  match st1.replies with
  | [] => (Except.error "ModelGatewayError", st1)
  | r :: rest => (r, { st1 with replies := rest })

/-- Argument normalization in the loop body: a string is passed through
`json.loads` (failure raises), an already-structured mapping is used
as-is. -/
def decodeArgs (env : Env) : ToolArgs → Except String ArgsMap
  | ToolArgs.text s =>
      match env.jsonLoads s with
      | some d => Except.ok d
      | none => Except.error ("JSONDecodeError: " ++ s)
  | ToolArgs.structured d => Except.ok d

/-- Boolean form of decodability of a tool call's arguments under an
environment, for decidable hypotheses. -/
def decodableArgs (env : Env) (tc : ToolCall) : Bool :=
  match tc.arguments with
  | ToolArgs.text s => (env.jsonLoads s).isSome
  | ToolArgs.structured _ => true

/-- The decoded argument mapping of a tool call (meaningful when
`decodableArgs` holds). -/
def decodedOf (env : Env) (tc : ToolCall) : ArgsMap :=
  match tc.arguments with
  | ToolArgs.text s => (env.jsonLoads s).getD ⟨""⟩
  | ToolArgs.structured d => d

/-- The tool message the loop appends for one tool call:
role `tool`, the correlation id, and the stringified result content. -/
def toolMessageOf (env : Env) (tc : ToolCall) : Message :=
  ⟨"tool", some (env.callTool tc.name (decodedOf env tc)).content, some tc.id, []⟩

/-- The invocation event the loop's dispatch of one tool call produces. -/
def invokeOf (env : Env) (tc : ToolCall) : Event :=
  Event.invoke tc.name (decodedOf env tc)

/-- The trace line the loop appends to the accumulated output for one
tool call. -/
def traceLineOf (env : Env) (tc : ToolCall) : String :=
  ToolManager.format_tool_result tc.name (decodedOf env tc)
    (env.callTool tc.name (decodedOf env tc))

/-- Body of `for tool_call in assistant_message.tool_calls` for a single
call: normalize arguments (a decode failure raises, carrying the state
mutated so far), invoke the tool, append the trace line to the output,
append the tool message to the transcript. -/
def processToolCall (env : Env) (st : LoopState) (tc : ToolCall) :
    Except (String × LoopState) LoopState :=
  match decodeArgs env tc.arguments with
  | Except.error e => Except.error (e, st)
  | Except.ok args =>
      let result := env.callTool tc.name args
      Except.ok
        { st with
          trace := st.trace ++ [Event.invoke tc.name args]
          finalText := st.finalText ++ [ToolManager.format_tool_result tc.name args result]
          messages := st.messages ++ [⟨"tool", some result.content, some tc.id, []⟩] }

/-- Sequential processing of all tool calls of one assistant reply, in
the order the model listed them; the first decode failure aborts the
iteration with the partially mutated state. -/
def processToolCalls (env : Env) : LoopState → List ToolCall →
    Except (String × LoopState) LoopState
  | st, [] => Except.ok st
  | st, tc :: rest =>
      match processToolCall env st tc with
      | Except.error es => Except.error es
      | Except.ok st1 => processToolCalls env st1 rest

/-- Python truthiness check `if assistant_message.content:` — appends the
reply's text to the accumulated output unless it is None or empty. -/
def appendContent (st : LoopState) (m : AssistantMessage) : LoopState :=
  match m.content with
  | some s => if s.isEmpty then st else { st with finalText := st.finalText ++ [s] }
  | none => st

/-- Outcome of one iteration of the tool-calling loop: terminate with
the joined output, continue to the next iteration, or propagate a raised
exception (keeping the state mutated so far). -/
inductive StepOut where
  | done (out : String) (st : LoopState)
  | more (st : LoopState)
  | fail (e : String) (st : LoopState)

/-- Lifts a processToolCalls outcome into the iteration outcome: a
decode failure propagates as a raised exception with the state mutated
so far, success continues the loop. -/
def ptcOut : Except (String × LoopState) LoopState → StepOut
  | Except.error (e, st4) => StepOut.fail e st4
  | Except.ok st4 => StepOut.more st4

/-- Processing of one fetched assistant reply (the loop body after the
chat-completion request): append any truthy text content, then either
append the final assistant message and stop (no tool calls), or append
the assistant message with its tool-call requests verbatim and process
every requested call in order. -/
def afterReply (env : Env) (st : LoopState) (m : AssistantMessage) : StepOut :=
  let st2 := appendContent st m
  if m.tool_calls.isEmpty then
    StepOut.done (String.intercalate "\n" st2.finalText)
      { st2 with messages := st2.messages ++ [m.model_dump] }
  else
    let st3 : LoopState := { st2 with messages := st2.messages ++ [m.model_dump] }
    ptcOut (processToolCalls env st3 m.tool_calls)

/-- One iteration of `_execute_with_tools`: issue the chat-completion
request, then process the fetched reply. -/
def stepIter (env : Env) (availableTools : List OpenAITool) (st : LoopState) : StepOut :=
  match gatewayCall st.model availableTools st with
  | (Except.error e, st1) => StepOut.fail e st1
  | (Except.ok m, st1) => afterReply env st1 m

/-- The bounded iteration `for iteration in range(max_iterations)` of
`_execute_with_tools`; exhausting the range returns the newline-joined
accumulated output. -/
def execLoop (env : Env) (availableTools : List OpenAITool) :
    Nat → LoopState → Except String String × LoopState
  | 0, st => (Except.ok (String.intercalate "\n" st.finalText), st)
  | Nat.succ fuel, st =>
      match stepIter env availableTools st with
      | StepOut.done out st1 => (Except.ok out, st1)
      | StepOut.fail e st1 => (Except.error e, st1)
      | StepOut.more st1 => execLoop env availableTools fuel st1

/-- ChatProcessor._execute_with_tools with its hard cap
`max_iterations = 10`. -/
def execute_with_tools (env : Env) (availableTools : List OpenAITool) (st : LoopState) :
    Except String String × LoopState :=
  execLoop env availableTools 10 st

/-- The system preamble installed by LLMClient.__init__ (abbreviated
textually; only its identity matters to the theorems). -/
def systemPrompt : String :=
  "You are an intelligent assistant with access to MCP (Model Context Protocol) tools, resources, and prompts."

/-- The default model identifier of LLMClient.__init__ and the hardcoded
model of MCPClient.process_query. -/
def defaultModel : String := "anthropic/claude-3-5-sonnet-20241022"

/-- LLMClient state: the configured model identifier and the owned
conversation history. -/
structure LLMClient where
  model : String
  messages : List Message

/-- LLMClient.__init__: installs the single system message as the first
(and only) transcript entry. -/
def LLMClient.init (model : String) : LLMClient :=
  ⟨model, [⟨"system", some systemPrompt, none, []⟩]⟩

/-- LLMClient.add_message: appends a `role`/`content` dict to the
history, with no validation of the role. -/
def LLMClient.add_message (c : LLMClient) (role content : String) : LLMClient :=
  { c with messages := c.messages ++ [⟨role, some content, none, []⟩] }

/-- LLMClient.clear_history: keeps the first message when it is a system
message, drops everything else. -/
def LLMClient.clear_history (c : LLMClient) : LLMClient :=
  let system_prompt : Option Message :=
    match c.messages with
    | m :: _ => if m.role = "system" then some m else none
    | [] => none
  match system_prompt with
  | some m => { c with messages := [m] }
  | none => { c with messages := [] }

/-- MCPClient.clear_chat_history (client.py): resets the history to the
empty list unconditionally (client.py never stores a system message). -/
def MCPClient.clear_chat_history (_messages : List Message) : List Message := []

/-- ChatProcessor.process_query: append the user message to the
conversation, fetch the tool directory (a raised listing error
propagates with the user message already appended), and run the
tool-calling loop. -/
def ChatProcessor.process_query (env : Env) (client : LLMClient)
    (replies : List (Except String AssistantMessage)) (query : String) :
    Except String String × LoopState :=
  let client1 := client.add_message "user" query
  let st : LoopState := ⟨client1.model, client1.messages, [], [], replies⟩
  match env.listTools with
  | Except.error e => (Except.error e, st)
  | Except.ok tools => execute_with_tools env (ToolManager.get_tools_for_openai tools) st

/-- The second hardcoded model identifier of
MCPClient.process_query_from_messages (client.py): the first
chat-completion request of that code path is issued with this model. -/
def promptResumeModel : String := "moonshotai/kimi-k2"

/-- The iteration of MCPClient.process_query_from_messages (client.py):
the pending reply is processed first and the next chat-completion
request is issued at the bottom of the body, hardcoded to
`anthropic/claude-3-5-sonnet-20241022`; exhausting the range returns the
joined output with the last fetched reply unprocessed. -/
def clientIter (env : Env) (availableTools : List OpenAITool) :
    Nat → AssistantMessage → LoopState → Except String String × LoopState
  | 0, _, st => (Except.ok (String.intercalate "\n" st.finalText), st)
  | Nat.succ fuel, m, st =>
      match afterReply env st m with
      | StepOut.done out st1 => (Except.ok out, st1)
      | StepOut.fail e st1 => (Except.error e, st1)
      | StepOut.more st4 =>
          match gatewayCall "anthropic/claude-3-5-sonnet-20241022" availableTools st4 with
          | (Except.error e, st5) => (Except.error e, st5)
          | (Except.ok m1, st5) => clientIter env availableTools fuel m1 st5

/-- MCPClient.process_query_from_messages (client.py): fetches the tool
directory, issues the initial chat-completion request with the hardcoded
model `moonshotai/kimi-k2`, then runs up to 10 iterations whose
follow-up requests use `anthropic/claude-3-5-sonnet-20241022`.  The
LoopState model field is unused on this path (client.py has no
configured model attribute). -/
def MCPClient.process_query_from_messages (env : Env) (messages : List Message)
    (replies : List (Except String AssistantMessage)) :
    Except String String × LoopState :=
  let st : LoopState := ⟨"", messages, [], [], replies⟩
  match env.listTools with
  | Except.error e => (Except.error e, st)
  | Except.ok tools =>
      let availableTools := ToolManager.get_tools_for_openai tools
      match gatewayCall "moonshotai/kimi-k2" availableTools st with
      | (Except.error e, st1) => (Except.error e, st1)
      | (Except.ok m, st1) => clientIter env availableTools 10 m st1

/-! Helper lemmas about the loop body. -/

/-- The state carried by a processToolCalls outcome, error or not (in the
source the state is mutated in place, so it survives a raised exception). -/
def ptcState : Except (String × LoopState) LoopState → LoopState
  | Except.ok st => st
  | Except.error (_, st) => st

theorem decodeArgs_eq_ok (env : Env) (tc : ToolCall) (h : decodableArgs env tc = true) :
    decodeArgs env tc.arguments = Except.ok (decodedOf env tc) := by
  rcases tc with ⟨tid, tname, targs⟩
  cases targs with
  | text s =>
      simp only [decodableArgs] at h
      cases hj : env.jsonLoads s with
      | none => rw [hj] at h; simp at h
      | some d => simp [decodeArgs, decodedOf, hj]
  | structured d => simp [decodeArgs, decodedOf]

theorem processToolCalls_ok (env : Env) (tcs : List ToolCall) (st : LoopState)
    (h : ∀ tc ∈ tcs, decodableArgs env tc = true) :
    processToolCalls env st tcs = Except.ok
      { st with
        trace := st.trace ++ tcs.map (invokeOf env)
        finalText := st.finalText ++ tcs.map (traceLineOf env)
        messages := st.messages ++ tcs.map (toolMessageOf env) } := by
  induction tcs generalizing st with
  | nil => simp [processToolCalls]
  | cons tc rest ih =>
      have htc := h tc (by simp)
      have hdec := decodeArgs_eq_ok env tc htc
      have hrest : ∀ t ∈ rest, decodableArgs env t = true := fun t ht => h t (by simp [ht])
      simp only [processToolCalls, processToolCall, hdec, ih _ hrest]
      simp [invokeOf, traceLineOf, toolMessageOf]

theorem processToolCalls_shape (env : Env) (tcs : List ToolCall) (st : LoopState) :
    ∃ d tr ft,
      (ptcState (processToolCalls env st tcs)).model = st.model ∧
      (ptcState (processToolCalls env st tcs)).replies = st.replies ∧
      (ptcState (processToolCalls env st tcs)).messages = st.messages ++ d ∧
      (ptcState (processToolCalls env st tcs)).trace = st.trace ++ tr ∧
      (ptcState (processToolCalls env st tcs)).finalText = st.finalText ++ ft ∧
      (∀ m ∈ d, m.role = "tool" ∧ ∃ tc ∈ tcs, m.tool_call_id = some tc.id) ∧
      (∀ ev ∈ tr, ∃ n a, ev = Event.invoke n a) := by
  induction tcs generalizing st with
  | nil =>
      refine ⟨[], [], [], ?_⟩
      simp [processToolCalls, ptcState]
  | cons tc rest ih =>
      cases hdec : decodeArgs env tc.arguments with
      | error e =>
          refine ⟨[], [], [], ?_⟩
          simp [processToolCalls, processToolCall, hdec, ptcState]
      | ok args =>
          obtain ⟨d, tr, ft, hmodel, hreplies, hmsgs, htr, hft, hd, htrev⟩ :=
            ih { st with
                  trace := st.trace ++ [Event.invoke tc.name args]
                  finalText := st.finalText ++
                    [ToolManager.format_tool_result tc.name args (env.callTool tc.name args)]
                  messages := st.messages ++
                    [⟨"tool", some (env.callTool tc.name args).content, some tc.id, []⟩] }
          refine ⟨⟨"tool", some (env.callTool tc.name args).content, some tc.id, []⟩ :: d,
            Event.invoke tc.name args :: tr,
            ToolManager.format_tool_result tc.name args (env.callTool tc.name args) :: ft,
            ?_, ?_, ?_, ?_, ?_, ?_, ?_⟩
          · simpa only [processToolCalls, processToolCall, hdec] using hmodel
          · simpa only [processToolCalls, processToolCall, hdec] using hreplies
          · simp only [processToolCalls, processToolCall, hdec]
            rw [hmsgs]; simp
          · simp only [processToolCalls, processToolCall, hdec]
            rw [htr]; simp
          · simp only [processToolCalls, processToolCall, hdec]
            rw [hft]; simp
          · intro m hm
            rcases List.mem_cons.mp hm with hm | hm
            · subst hm
              exact ⟨rfl, tc, by simp, rfl⟩
            · obtain ⟨hrole, tc1, htc1, hid⟩ := hd m hm
              exact ⟨hrole, tc1, by simp [htc1], hid⟩
          · intro ev hev
            rcases List.mem_cons.mp hev with hev | hev
            · exact ⟨tc.name, args, hev⟩
            · exact htrev ev hev

/-- The state carried by an iteration outcome, whichever constructor. -/
def StepOut.state : StepOut → LoopState
  | StepOut.done _ st => st
  | StepOut.more st => st
  | StepOut.fail _ st => st

theorem appendContent_messages (st : LoopState) (m : AssistantMessage) :
    (appendContent st m).messages = st.messages := by
  unfold appendContent
  cases m.content with
  | none => rfl
  | some s => by_cases hs : s.isEmpty <;> simp [hs]

theorem appendContent_trace (st : LoopState) (m : AssistantMessage) :
    (appendContent st m).trace = st.trace := by
  unfold appendContent
  cases m.content with
  | none => rfl
  | some s => by_cases hs : s.isEmpty <;> simp [hs]

theorem appendContent_model (st : LoopState) (m : AssistantMessage) :
    (appendContent st m).model = st.model := by
  unfold appendContent
  cases m.content with
  | none => rfl
  | some s => by_cases hs : s.isEmpty <;> simp [hs]

theorem appendContent_replies (st : LoopState) (m : AssistantMessage) :
    (appendContent st m).replies = st.replies := by
  unfold appendContent
  cases m.content with
  | none => rfl
  | some s => by_cases hs : s.isEmpty <;> simp [hs]

theorem ptcOut_state (res : Except (String × LoopState) LoopState) :
    (ptcOut res).state = ptcState res := by
  rcases res with ⟨e, st4⟩ | st4 <;> rfl

theorem gatewayCall_snd (model : String) (tools : List OpenAITool) (st : LoopState) :
    (gatewayCall model tools st).2.model = st.model ∧
    (gatewayCall model tools st).2.messages = st.messages ∧
    (gatewayCall model tools st).2.finalText = st.finalText ∧
    (gatewayCall model tools st).2.trace =
      st.trace ++ [Event.gateway model st.messages (toolsParam tools)] := by
  unfold gatewayCall
  cases hr : st.replies with
  | nil => simp [hr]
  | cons r rest => simp [hr]

/-- Equation for the reply-processing body when the reply carries tool
calls. -/
theorem afterReply_toolcalls (env : Env) (st : LoopState) (m : AssistantMessage)
    (htc : m.tool_calls.isEmpty = false) :
    afterReply env st m = ptcOut (processToolCalls env
      { appendContent st m with
        messages := (appendContent st m).messages ++ [m.model_dump] } m.tool_calls) := by
  unfold afterReply
  rw [htc]
  simp

/-- Equation for the reply-processing body when the reply carries no
tool calls (including the Python `None` case). -/
theorem afterReply_done (env : Env) (st : LoopState) (m : AssistantMessage)
    (htc : m.tool_calls.isEmpty = true) :
    afterReply env st m =
      StepOut.done (String.intercalate "\n" (appendContent st m).finalText)
        { appendContent st m with
          messages := (appendContent st m).messages ++ [m.model_dump] } := by
  unfold afterReply
  rw [htc]
  simp

/-- Shape of the reply-processing body: model and remaining replies are
preserved, the transcript only grows by assistant and tool messages, and
the trace only grows by invocation events. -/
theorem afterReply_shape (env : Env) (st : LoopState) (m : AssistantMessage) :
    ∃ d tr,
      (afterReply env st m).state.model = st.model ∧
      (afterReply env st m).state.replies = st.replies ∧
      (afterReply env st m).state.messages = st.messages ++ d ∧
      (afterReply env st m).state.trace = st.trace ++ tr ∧
      (∀ x ∈ d, x.role = "assistant" ∨ x.role = "tool") ∧
      (∀ ev ∈ tr, ∃ n a, ev = Event.invoke n a) := by
  cases htc : m.tool_calls.isEmpty with
  | true =>
      refine ⟨[m.model_dump], [], ?_⟩
      rw [afterReply_done env st m htc]
      simp [StepOut.state, appendContent_messages, appendContent_trace,
        appendContent_model, appendContent_replies, AssistantMessage.model_dump]
  | false =>
      rw [afterReply_toolcalls env st m htc]
      rw [ptcOut_state]
      obtain ⟨d, tr, ft, hmodel, hreplies, hmsgs, htr, hft, hd, htrev⟩ :=
        processToolCalls_shape env m.tool_calls
          { appendContent st m with
            messages := (appendContent st m).messages ++ [m.model_dump] }
      refine ⟨m.model_dump :: d, tr, ?_, ?_, ?_, ?_, ?_, ?_⟩
      · rw [hmodel]; simp [appendContent_model]
      · rw [hreplies]; simp [appendContent_replies]
      · rw [hmsgs]; simp [appendContent_messages]
      · rw [htr]; simp [appendContent_trace]
      · intro x hx
        rcases List.mem_cons.mp hx with hx | hx
        · subst hx; left; rfl
        · right; exact (hd x hx).1
      · exact htrev

/-- Shape of a full loop iteration: one gateway event recording the
pre-iteration transcript, the configured model and the
truthiness-filtered tools parameter, followed by invocation events only;
the transcript grows only by assistant and tool messages. -/
theorem stepIter_shape (env : Env) (tools : List OpenAITool) (st : LoopState) :
    ∃ d tr,
      (stepIter env tools st).state.model = st.model ∧
      (stepIter env tools st).state.messages = st.messages ++ d ∧
      (stepIter env tools st).state.trace =
        st.trace ++ Event.gateway st.model st.messages (toolsParam tools) :: tr ∧
      (∀ x ∈ d, x.role = "assistant" ∨ x.role = "tool") ∧
      (∀ ev ∈ tr, ∃ n a, ev = Event.invoke n a) := by
  unfold stepIter gatewayCall
  cases hr : st.replies with
  | nil =>
      refine ⟨[], [], ?_⟩
      simp [StepOut.state]
  | cons r rest =>
      cases r with
      | error e =>
          refine ⟨[], [], ?_⟩
          simp [StepOut.state]
      | ok m =>
          simp only
          obtain ⟨d, tr, hmodel, hreplies, hmsgs, htr, hd, htrev⟩ :=
            afterReply_shape env
              { st with
                trace := st.trace ++ [Event.gateway st.model st.messages (toolsParam tools)],
                replies := rest } m
          refine ⟨d, tr, ?_, ?_, ?_, ?_, ?_⟩
          · rw [hmodel]
          · rw [hmsgs]
          · rw [htr]; simp
          · exact hd
          · exact htrev

/-- Discriminates gateway events in a trace. -/
def isGatewayEvent : Event → Bool
  | Event.gateway _ _ _ => true
  | Event.invoke _ _ => false

theorem countP_gateway_zero (tr : List Event)
    (h : ∀ ev ∈ tr, ∃ n a, ev = Event.invoke n a) :
    tr.countP (fun ev => isGatewayEvent ev) = 0 := by
  rw [List.countP_eq_zero]
  intro ev hev
  obtain ⟨n, a, rfl⟩ := h ev hev
  simp [isGatewayEvent]

/-- Shape of a full run of the bounded loop: the configured model is
preserved; the transcript only grows, and only by assistant and tool
messages; every appended trace event is either a gateway request with
the configured model and the truthiness-filtered tools parameter, or an
invocation; at most `fuel` gateway requests are issued; and if anything
was appended to the trace, the first appended event is a gateway
request. -/
theorem execLoop_shape (env : Env) (tools : List OpenAITool) (fuel : Nat) (st : LoopState) :
    ∃ d tr,
      (execLoop env tools fuel st).2.model = st.model ∧
      (execLoop env tools fuel st).2.messages = st.messages ++ d ∧
      (execLoop env tools fuel st).2.trace = st.trace ++ tr ∧
      (∀ x ∈ d, x.role = "assistant" ∨ x.role = "tool") ∧
      (∀ ev ∈ tr, (∃ ms, ev = Event.gateway st.model ms (toolsParam tools)) ∨
        ∃ n a, ev = Event.invoke n a) ∧
      tr.countP (fun ev => isGatewayEvent ev) ≤ fuel ∧
      (tr = [] ∨ ∃ ms, tr.head? = some (Event.gateway st.model ms (toolsParam tools))) := by
  induction fuel generalizing st with
  | zero =>
      refine ⟨[], [], ?_⟩
      simp [execLoop]
  | succ fuel ih =>
      obtain ⟨d1, tr1, hmodel1, hmsgs1, htr1, hd1, htrev1⟩ := stepIter_shape env tools st
      cases hstep : stepIter env tools st with
      | done out st1 =>
          rw [hstep] at hmodel1 hmsgs1 htr1
          refine ⟨d1, Event.gateway st.model st.messages (toolsParam tools) :: tr1,
            ?_, ?_, ?_, ?_, ?_, ?_, ?_⟩
          · simpa [execLoop, hstep, StepOut.state] using hmodel1
          · simpa [execLoop, hstep, StepOut.state] using hmsgs1
          · simpa [execLoop, hstep, StepOut.state] using htr1
          · exact hd1
          · intro ev hev
            rcases List.mem_cons.mp hev with hev | hev
            · exact Or.inl ⟨st.messages, hev⟩
            · obtain ⟨n, a, rfl⟩ := htrev1 ev hev
              exact Or.inr ⟨n, a, rfl⟩
          · rw [List.countP_cons, countP_gateway_zero tr1 htrev1]
            simp [isGatewayEvent]
          · exact Or.inr ⟨st.messages, rfl⟩
      | fail e st1 =>
          rw [hstep] at hmodel1 hmsgs1 htr1
          refine ⟨d1, Event.gateway st.model st.messages (toolsParam tools) :: tr1,
            ?_, ?_, ?_, ?_, ?_, ?_, ?_⟩
          · simpa [execLoop, hstep, StepOut.state] using hmodel1
          · simpa [execLoop, hstep, StepOut.state] using hmsgs1
          · simpa [execLoop, hstep, StepOut.state] using htr1
          · exact hd1
          · intro ev hev
            rcases List.mem_cons.mp hev with hev | hev
            · exact Or.inl ⟨st.messages, hev⟩
            · obtain ⟨n, a, rfl⟩ := htrev1 ev hev
              exact Or.inr ⟨n, a, rfl⟩
          · rw [List.countP_cons, countP_gateway_zero tr1 htrev1]
            simp [isGatewayEvent]
          · exact Or.inr ⟨st.messages, rfl⟩
      | more st1 =>
          rw [hstep] at hmodel1 hmsgs1 htr1
          simp only [StepOut.state] at hmodel1 hmsgs1 htr1
          obtain ⟨d2, tr2, hmodel2, hmsgs2, htr2, hd2, htrev2, hcount2, hhead2⟩ := ih st1
          have hloop : execLoop env tools (Nat.succ fuel) st = execLoop env tools fuel st1 := by
            simp [execLoop, hstep]
          refine ⟨d1 ++ d2, (Event.gateway st.model st.messages (toolsParam tools) :: tr1) ++ tr2,
            ?_, ?_, ?_, ?_, ?_, ?_, ?_⟩
          · rw [hloop, hmodel2, hmodel1]
          · rw [hloop, hmsgs2, hmsgs1]; simp
          · rw [hloop, htr2, htr1]; simp
          · intro x hx
            rcases List.mem_append.mp hx with hx | hx
            · exact hd1 x hx
            · exact hd2 x hx
          · intro ev hev
            rcases List.mem_append.mp hev with hev | hev
            · rcases List.mem_cons.mp hev with hev | hev
              · exact Or.inl ⟨st.messages, hev⟩
              · obtain ⟨n, a, rfl⟩ := htrev1 ev hev
                exact Or.inr ⟨n, a, rfl⟩
            · rcases htrev2 ev hev with ⟨ms, hms⟩ | h
              · rw [hmodel1] at hms
                exact Or.inl ⟨ms, hms⟩
              · exact Or.inr h
          · have h1 : (Event.gateway st.model st.messages (toolsParam tools) :: tr1).countP
                (fun ev => isGatewayEvent ev) = 1 := by
              rw [List.countP_cons, countP_gateway_zero tr1 htrev1]
              rfl
            rw [List.countP_append, h1]
            omega
          · exact Or.inr ⟨st.messages, rfl⟩

/-- Correlation invariant, relative to a starting length `base`: every
tool message at a position at or past `base` is preceded by an assistant
message carrying a tool-call request with the matching correlation id. -/
def linkedAfter (base : Nat) (msgs : List Message) : Prop :=
  ∀ i, ∀ hi : i < msgs.length, base ≤ i → (msgs.get ⟨i, hi⟩).role = "tool" →
    ∃ j, ∃ hj : j < msgs.length, j < i ∧ (msgs.get ⟨j, hj⟩).role = "assistant" ∧
      ∃ tc, tc ∈ (msgs.get ⟨j, hj⟩).tool_calls ∧
        some tc.id = (msgs.get ⟨i, hi⟩).tool_call_id

theorem linkedAfter_of_length_le (base : Nat) (msgs : List Message)
    (h : msgs.length ≤ base) : linkedAfter base msgs := by
  intro i hi hbase
  omega

theorem linkedAfter_append_no_tool (base : Nat) (msgs delta : List Message)
    (h : linkedAfter base msgs) (hdelta : ∀ x ∈ delta, x.role ≠ "tool") :
    linkedAfter base (msgs ++ delta) := by
  intro i hi hbase hrole
  by_cases hcase : i < msgs.length
  · have hget : (msgs ++ delta).get ⟨i, hi⟩ = msgs.get ⟨i, hcase⟩ := by
      simp [List.get_eq_getElem, List.getElem_append_left hcase]
    rw [hget] at hrole ⊢
    obtain ⟨j, hj, hji, hjrole, tc, htc, hid⟩ := h i hcase hbase hrole
    have hjlt : j < (msgs ++ delta).length := by
      simp only [List.length_append]
      omega
    have hgetj : (msgs ++ delta).get ⟨j, hjlt⟩ = msgs.get ⟨j, hj⟩ := by
      simp [List.get_eq_getElem, List.getElem_append_left hj]
    refine ⟨j, hjlt, hji, ?_, tc, ?_, hid⟩
    · rw [hgetj]; exact hjrole
    · rw [hgetj]; exact htc
  · have hle : msgs.length ≤ i := Nat.le_of_not_lt hcase
    have hisub : i - msgs.length < delta.length := by
      simp only [List.length_append] at hi
      omega
    have hget : (msgs ++ delta).get ⟨i, hi⟩ = delta.get ⟨i - msgs.length, hisub⟩ := by
      simp [List.get_eq_getElem, List.getElem_append_right hle]
    rw [hget] at hrole
    exact absurd hrole (hdelta _ (List.get_mem delta (i - msgs.length) hisub))

theorem linkedAfter_append_block (base : Nat) (msgs : List Message)
    (am : Message) (toolpart : List Message)
    (h : linkedAfter base msgs)
    (ham : am.role = "assistant")
    (htp : ∀ x ∈ toolpart, ∃ tc, tc ∈ am.tool_calls ∧ x.tool_call_id = some tc.id) :
    linkedAfter base (msgs ++ am :: toolpart) := by
  intro i hi hbase hrole
  by_cases hcase : i < msgs.length
  · have hget : (msgs ++ am :: toolpart).get ⟨i, hi⟩ = msgs.get ⟨i, hcase⟩ := by
      simp [List.get_eq_getElem, List.getElem_append_left hcase]
    rw [hget] at hrole ⊢
    obtain ⟨j, hj, hji, hjrole, tc, htc, hid⟩ := h i hcase hbase hrole
    have hjlt : j < (msgs ++ am :: toolpart).length := by
      simp only [List.length_append]
      omega
    have hgetj : (msgs ++ am :: toolpart).get ⟨j, hjlt⟩ = msgs.get ⟨j, hj⟩ := by
      simp [List.get_eq_getElem, List.getElem_append_left hj]
    refine ⟨j, hjlt, hji, ?_, tc, ?_, hid⟩
    · rw [hgetj]; exact hjrole
    · rw [hgetj]; exact htc
  · have hle : msgs.length ≤ i := Nat.le_of_not_lt hcase
    have hisub : i - msgs.length < (am :: toolpart).length := by
      simp only [List.length_append] at hi
      omega
    have hget : (msgs ++ am :: toolpart).get ⟨i, hi⟩ =
        (am :: toolpart).get ⟨i - msgs.length, hisub⟩ := by
      simp [List.get_eq_getElem, List.getElem_append_right hle]
    by_cases heq : i = msgs.length
    · subst heq
      have : (msgs ++ am :: toolpart).get ⟨msgs.length, hi⟩ = am := by
        rw [hget]
        simp
      rw [this] at hrole
      rw [ham] at hrole
      exact absurd hrole (by decide)
    · have hgt : msgs.length < i := by omega
      have hamlt : msgs.length < (msgs ++ am :: toolpart).length := by
        simp only [List.length_append]
        omega
      have hgetam : (msgs ++ am :: toolpart).get ⟨msgs.length, hamlt⟩ = am := by
        simp [List.get_eq_getElem, List.getElem_append_right (Nat.le_refl msgs.length)]
      have hlen : (msgs ++ am :: toolpart).length = msgs.length + (toolpart.length + 1) := by
        simp only [List.length_append, List.length_cons]
      have hi2 : i < msgs.length + (toolpart.length + 1) := hlen ▸ hi
      have hitp : i - msgs.length - 1 < toolpart.length := by
        omega
      have hgettp : (am :: toolpart).get ⟨i - msgs.length, hisub⟩ =
          toolpart.get ⟨i - msgs.length - 1, hitp⟩ := by
        have hpos : i - msgs.length = (i - msgs.length - 1) + 1 := by omega
        have h9 : (i - msgs.length - 1) + 1 < (am :: toolpart).length := by
          simp only [List.length_cons]
          omega
        have hfin : (⟨i - msgs.length, hisub⟩ : Fin (am :: toolpart).length) =
            ⟨(i - msgs.length - 1) + 1, h9⟩ := Fin.mk_eq_mk.mpr hpos
        rw [hfin]
        simp [List.get_eq_getElem]
      obtain ⟨tc, htc, hid⟩ := htp _ (List.get_mem toolpart (i - msgs.length - 1) hitp)
      refine ⟨msgs.length, hamlt, hgt, ?_, tc, ?_, ?_⟩
      · rw [hgetam]; exact ham
      · rw [hgetam]; exact htc
      · rw [hget, hgettp]
        exact hid.symm

theorem afterReply_linked (env : Env) (st : LoopState) (m : AssistantMessage) (base : Nat)
    (h : linkedAfter base st.messages) :
    linkedAfter base (afterReply env st m).state.messages := by
  cases htc : m.tool_calls.isEmpty with
  | true =>
      rw [afterReply_done env st m htc]
      simp only [StepOut.state, appendContent_messages]
      refine linkedAfter_append_no_tool base st.messages [m.model_dump] h ?_
      intro x hx
      rcases List.mem_singleton.mp hx with rfl
      simp [AssistantMessage.model_dump]
  | false =>
      rw [afterReply_toolcalls env st m htc, ptcOut_state]
      obtain ⟨d, tr, ft, hmodel, hreplies, hmsgs, htr, hft, hd, htrev⟩ :=
        processToolCalls_shape env m.tool_calls
          { appendContent st m with
            messages := (appendContent st m).messages ++ [m.model_dump] }
      rw [hmsgs]
      simp only [appendContent_messages]
      rw [List.append_assoc, List.singleton_append]
      refine linkedAfter_append_block base st.messages m.model_dump d h rfl ?_
      intro x hx
      obtain ⟨hrole, tc, htc1, hid⟩ := hd x hx
      exact ⟨tc, htc1, hid⟩

theorem stepIter_linked (env : Env) (tools : List OpenAITool) (st : LoopState) (base : Nat)
    (h : linkedAfter base st.messages) :
    linkedAfter base (stepIter env tools st).state.messages := by
  unfold stepIter gatewayCall
  cases hr : st.replies with
  | nil => simpa [StepOut.state] using h
  | cons r rest =>
      cases r with
      | error e => simpa [StepOut.state] using h
      | ok m =>
          simp only
          exact afterReply_linked env _ m base h

theorem execLoop_linked (env : Env) (tools : List OpenAITool) (fuel : Nat) (st : LoopState)
    (base : Nat) (h : linkedAfter base st.messages) :
    linkedAfter base (execLoop env tools fuel st).2.messages := by
  induction fuel generalizing st with
  | zero => simpa [execLoop] using h
  | succ fuel ih =>
      have hstep := stepIter_linked env tools st base h
      cases hs : stepIter env tools st with
      | done out st1 =>
          rw [hs] at hstep
          simpa [execLoop, hs, StepOut.state] using hstep
      | fail e st1 =>
          rw [hs] at hstep
          simpa [execLoop, hs, StepOut.state] using hstep
      | more st1 =>
          rw [hs] at hstep
          simp only [StepOut.state] at hstep
          have heq : execLoop env tools (Nat.succ fuel) st = execLoop env tools fuel st1 := by
            simp [execLoop, hs]
          rw [heq]
          exact ih st1 hstep

theorem decodableArgs_of_total (env : Env)
    (hjson : ∀ s, (env.jsonLoads s).isSome = true) (tc : ToolCall) :
    decodableArgs env tc = true := by
  rcases tc with ⟨tid, tname, targs⟩
  cases targs with
  | text s => simpa [decodableArgs] using hjson s
  | structured d => rfl

/-- When every scripted reply is a successful reply requesting tool
calls and every argument string decodes, a full-fuel run of the loop
ends normally with the newline-joined accumulated text. -/
theorem execLoop_all_toolcalls (env : Env) (tools : List OpenAITool) (fuel : Nat)
    (st : LoopState)
    (hjson : ∀ s, (env.jsonLoads s).isSome = true)
    (hrep : ∀ r ∈ st.replies, ∃ m, r = Except.ok m ∧ m.tool_calls.isEmpty = false)
    (hlen : fuel ≤ st.replies.length) :
    (execLoop env tools fuel st).1 =
      Except.ok (String.intercalate "\n" (execLoop env tools fuel st).2.finalText) := by
  induction fuel generalizing st with
  | zero => simp [execLoop]
  | succ fuel ih =>
      cases hr : st.replies with
      | nil =>
          rw [hr] at hlen
          simp at hlen
      | cons r rest =>
          obtain ⟨m, hrm, htc⟩ := hrep r (by rw [hr]; exact List.mem_cons_self r rest)
          subst hrm
          have hdec : ∀ tc ∈ m.tool_calls, decodableArgs env tc = true :=
            fun tc _ => decodableArgs_of_total env hjson tc
          have hstep : stepIter env tools st =
              ptcOut (processToolCalls env
                { appendContent
                    { st with
                      trace := st.trace ++
                        [Event.gateway st.model st.messages (toolsParam tools)],
                      replies := rest } m with
                  messages := (appendContent
                    { st with
                      trace := st.trace ++
                        [Event.gateway st.model st.messages (toolsParam tools)],
                      replies := rest } m).messages ++ [m.model_dump] } m.tool_calls) := by
            unfold stepIter gatewayCall
            rw [hr]
            simp only
            exact afterReply_toolcalls env _ m htc
          rw [processToolCalls_ok env m.tool_calls _ hdec] at hstep
          have heq : execLoop env tools (Nat.succ fuel) st =
              execLoop env tools fuel (ptcState (processToolCalls env
                { appendContent
                    { st with
                      trace := st.trace ++
                        [Event.gateway st.model st.messages (toolsParam tools)],
                      replies := rest } m with
                  messages := (appendContent
                    { st with
                      trace := st.trace ++
                        [Event.gateway st.model st.messages (toolsParam tools)],
                      replies := rest } m).messages ++ [m.model_dump] } m.tool_calls)) := by
            rw [processToolCalls_ok env m.tool_calls _ hdec]
            simp [execLoop, hstep, ptcOut, ptcState]
          rw [heq]
          apply ih
          · rw [processToolCalls_ok env m.tool_calls _ hdec]
            simp only [ptcState]
            intro r2 hr2
            refine hrep r2 ?_
            rw [hr]
            simp only [appendContent_replies] at hr2
            exact List.mem_cons_of_mem _ hr2
          · rw [processToolCalls_ok env m.tool_calls _ hdec]
            simp only [ptcState]
            have : rest.length = st.replies.length - 1 := by
              rw [hr]
              simp
            simp only [appendContent_replies]
            rw [hr] at hlen
            simp only [List.length_cons] at hlen
            omega

/-- Every gateway request issued inside the iteration of
MCPClient.process_query_from_messages (after the initial one) carries
the hardcoded identifier `anthropic/claude-3-5-sonnet-20241022`. -/
theorem clientIter_gateway_model (env : Env) (tools : List OpenAITool) (fuel : Nat)
    (m : AssistantMessage) (st : LoopState) :
    ∃ tr, (clientIter env tools fuel m st).2.trace = st.trace ++ tr ∧
      ∀ ev ∈ tr, ∀ mo ms ts, ev = Event.gateway mo ms ts →
        mo = "anthropic/claude-3-5-sonnet-20241022" := by
  induction fuel generalizing m st with
  | zero =>
      refine ⟨[], by simp [clientIter], ?_⟩
      intro ev hev
      simp at hev
  | succ fuel ih =>
      obtain ⟨d1, tr1, hmodel1, hreplies1, hmsgs1, htr1, hd1, htrev1⟩ := afterReply_shape env st m
      have hinv : ∀ ev ∈ tr1, ∀ mo ms ts, ev = Event.gateway mo ms ts →
          mo = "anthropic/claude-3-5-sonnet-20241022" := by
        intro ev hev mo ms ts hg
        obtain ⟨n, a, rfl⟩ := htrev1 ev hev
        exact absurd hg (by simp)
      cases ha : afterReply env st m with
      | done out st1 =>
          rw [ha] at htr1
          simp only [StepOut.state] at htr1
          refine ⟨tr1, ?_, hinv⟩
          simpa [clientIter, ha] using htr1
      | fail e st1 =>
          rw [ha] at htr1
          simp only [StepOut.state] at htr1
          refine ⟨tr1, ?_, hinv⟩
          simpa [clientIter, ha] using htr1
      | more st4 =>
          rw [ha] at htr1
          simp only [StepOut.state] at htr1
          obtain ⟨hm5, hmsg5, hft5, htr5⟩ :=
            gatewayCall_snd "anthropic/claude-3-5-sonnet-20241022" tools st4
          cases hg5 : gatewayCall "anthropic/claude-3-5-sonnet-20241022" tools st4 with
          | mk r5 st5 =>
              rw [hg5] at htr5
              simp only at htr5
              cases r5 with
              | error e =>
                  refine ⟨tr1 ++ [Event.gateway "anthropic/claude-3-5-sonnet-20241022"
                    st4.messages (toolsParam tools)], ?_, ?_⟩
                  · have : (clientIter env tools (Nat.succ fuel) m st).2 = st5 := by
                      simp [clientIter, ha, hg5]
                    rw [this, htr5, htr1]
                    simp
                  · intro ev hev mo ms ts hg
                    rcases List.mem_append.mp hev with hev | hev
                    · exact hinv ev hev mo ms ts hg
                    · rcases List.mem_singleton.mp hev with rfl
                      cases hg
                      rfl
              | ok m1 =>
                  obtain ⟨tr2, htr2, hinv2⟩ := ih m1 st5
                  refine ⟨(tr1 ++ [Event.gateway "anthropic/claude-3-5-sonnet-20241022"
                    st4.messages (toolsParam tools)]) ++ tr2, ?_, ?_⟩
                  · have : clientIter env tools (Nat.succ fuel) m st =
                        clientIter env tools fuel m1 st5 := by
                      simp [clientIter, ha, hg5]
                    rw [this, htr2, htr5, htr1]
                    simp
                  · intro ev hev mo ms ts hg
                    rcases List.mem_append.mp hev with hev | hev
                    · rcases List.mem_append.mp hev with hev | hev
                      · exact hinv ev hev mo ms ts hg
                      · rcases List.mem_singleton.mp hev with rfl
                        cases hg
                        rfl
                    · exact hinv2 ev hev mo ms ts hg

/-! Claim theorems. -/

/-- Claim C2: for every sequence of model replies the orchestration loop
terminates within the iteration cap of 10 (at most 10 gateway requests
are issued), and when every reply keeps requesting tool calls (with
decodable arguments) the loop does not raise: it returns the
newline-joined text accumulated so far. -/
theorem C2_termination_cap (env : Env) (tools : List OpenAITool) (st : LoopState) :
    (∃ tr, (execute_with_tools env tools st).2.trace = st.trace ++ tr ∧
      tr.countP (fun ev => isGatewayEvent ev) ≤ 10) ∧
    (((∀ s, (env.jsonLoads s).isSome = true) ∧
      (∀ r ∈ st.replies, ∃ m, r = Except.ok m ∧ m.tool_calls.isEmpty = false) ∧
      10 ≤ st.replies.length) →
      (execute_with_tools env tools st).1 =
        Except.ok (String.intercalate "\n" (execute_with_tools env tools st).2.finalText)) := by
  constructor
  · obtain ⟨d, tr, hmo, hms, htr, hd, htrev, hcount, hhead⟩ := execLoop_shape env tools 10 st
    exact ⟨tr, htr, hcount⟩
  · rintro ⟨hjson, hrep, hlen⟩
    exact execLoop_all_toolcalls env tools 10 st hjson hrep hlen

/-- Oracle environment for the C2 witness: every argument string
decodes, every tool call succeeds. -/
def envC2 : Env := ⟨Except.ok [], fun _ => some ⟨"x"⟩, fun _ _ => ⟨"ok", false⟩⟩

/-- Loop state for the C2 witness: ten scripted replies, each
requesting one tool call. -/
def stC2 : LoopState :=
  ⟨defaultModel, [], [], [],
    List.replicate 10 (Except.ok ⟨some "t", [⟨"id1", "tool1", ToolArgs.structured ⟨"a"⟩⟩]⟩)⟩

theorem C2_termination_cap_witness :
    (execute_with_tools envC2 [] stC2).1 =
      Except.ok (String.intercalate "\n" (execute_with_tools envC2 [] stC2).2.finalText) :=
  (C2_termination_cap envC2 [] stC2).2
    ⟨fun _ => rfl,
     fun r hr => by
       rw [List.eq_of_mem_replicate hr]
       exact ⟨⟨some "t", [⟨"id1", "tool1", ToolArgs.structured ⟨"a"⟩⟩]⟩, rfl, rfl⟩,
     by simp [stC2]⟩

/-- Claim C7: with an empty tool directory, the schema mapping returns
the empty collection and every gateway request of the loop invocation
carries no tools field (Python None rather than an empty list). -/
theorem C7_empty_directory_omits_tools (env : Env) (client : LLMClient)
    (replies : List (Except String AssistantMessage)) (query : String)
    (hempty : env.listTools = Except.ok []) :
    ToolManager.get_tools_for_openai [] = [] ∧
    ∀ ev ∈ (ChatProcessor.process_query env client replies query).2.trace,
      ∀ model ms ts, ev = Event.gateway model ms ts → ts = none := by
  refine ⟨rfl, ?_⟩
  intro ev hev model ms ts hevg
  have h0 : ChatProcessor.process_query env client replies query =
      execute_with_tools env (ToolManager.get_tools_for_openai [])
        ⟨(client.add_message "user" query).model,
          (client.add_message "user" query).messages, [], [], replies⟩ := by
    unfold ChatProcessor.process_query
    rw [hempty]
  rw [h0] at hev
  unfold execute_with_tools at hev
  obtain ⟨d, tr, hmo, hms, htr, hd, htrev, hcount, hhead⟩ :=
    execLoop_shape env (ToolManager.get_tools_for_openai []) 10
      ⟨(client.add_message "user" query).model,
        (client.add_message "user" query).messages, [], [], replies⟩
  rw [htr] at hev
  have hev2 : ev ∈ tr := by
    simpa using hev
  rcases htrev ev hev2 with ⟨ms2, hg⟩ | ⟨n, a, hg⟩
  · rw [hevg] at hg
    cases hg
    rfl
  · rw [hevg] at hg
    cases hg

/-- Oracle environment for the C7 witness: empty tool directory. -/
def envC7 : Env := ⟨Except.ok [], fun _ => none, fun _ _ => ⟨"", false⟩⟩

theorem C7_empty_directory_omits_tools_witness :
    ToolManager.get_tools_for_openai [] = [] ∧
    ∀ ev ∈ (ChatProcessor.process_query envC7 (LLMClient.init defaultModel)
        [Except.ok ⟨some "hi", []⟩] "q").2.trace,
      ∀ model ms ts, ev = Event.gateway model ms ts → ts = none :=
  C7_empty_directory_omits_tools envC7 (LLMClient.init defaultModel)
    [Except.ok ⟨some "hi", []⟩] "q" rfl

/-- Claim C10: the user message is appended to the shared history before
the tool listing and the first gateway call, and on a fatal error the
transcript is not rolled back: whatever the outcome, the history begins
with the prior messages followed by the user message, and both a tool
listing failure and a first-gateway-call failure leave the user message
in the history while the error propagates. -/
theorem C10_not_atomic_on_error (env : Env) (client : LLMClient)
    (replies : List (Except String AssistantMessage)) (query : String) :
    ((ChatProcessor.process_query env client replies query).2.messages.take
        (client.messages.length + 1) =
      client.messages ++ [⟨"user", some query, none, []⟩]) ∧
    (∀ e, env.listTools = Except.error e →
      (ChatProcessor.process_query env client replies query).1 = Except.error e) ∧
    (∀ tools e rest, env.listTools = Except.ok tools →
      replies = Except.error e :: rest →
      (ChatProcessor.process_query env client replies query).1 = Except.error e ∧
      (ChatProcessor.process_query env client replies query).2.messages =
        client.messages ++ [⟨"user", some query, none, []⟩]) := by
  have hbaselen : (client.messages ++ [(⟨"user", some query, none, []⟩ : Message)]).length =
      client.messages.length + 1 := by
    simp
  refine ⟨?_, ?_, ?_⟩
  · unfold ChatProcessor.process_query
    cases hl : env.listTools with
    | error e =>
        simp only
        have h1 : (client.add_message "user" query).messages =
            client.messages ++ [⟨"user", some query, none, []⟩] := rfl
        rw [h1, ← hbaselen, List.take_length]
    | ok tools =>
        simp only
        unfold execute_with_tools
        obtain ⟨d, tr, hmo, hms, htr, hd, htrev, hcount, hhead⟩ :=
          execLoop_shape env (ToolManager.get_tools_for_openai tools) 10
            ⟨(client.add_message "user" query).model,
              (client.add_message "user" query).messages, [], [], replies⟩
        have hms2 : (execLoop env (ToolManager.get_tools_for_openai tools) 10
            ⟨(client.add_message "user" query).model,
              (client.add_message "user" query).messages, [], [], replies⟩).2.messages =
            (client.messages ++ [⟨"user", some query, none, []⟩]) ++ d := hms
        rw [hms2]
        exact List.take_left' hbaselen
  · intro e hl
    unfold ChatProcessor.process_query
    rw [hl]
  · intro tools e rest hok hrep
    subst hrep
    unfold ChatProcessor.process_query
    rw [hok]
    exact ⟨rfl, rfl⟩

/-- Oracle environment for the C10 witness: the provider session is not
connected, so the tool listing raises. -/
def envC10 : Env := ⟨Except.error "ProviderUnavailableError", fun _ => none, fun _ _ => ⟨"", false⟩⟩

theorem C10_not_atomic_on_error_witness :
    (ChatProcessor.process_query envC10 (LLMClient.init defaultModel) [] "hello").1 =
      Except.error "ProviderUnavailableError" ∧
    (ChatProcessor.process_query envC10 (LLMClient.init defaultModel) [] "hello").2.messages.take
        ((LLMClient.init defaultModel).messages.length + 1) =
      (LLMClient.init defaultModel).messages ++ [⟨"user", some "hello", none, []⟩] :=
  ⟨(C10_not_atomic_on_error envC10 (LLMClient.init defaultModel) [] "hello").2.1
      "ProviderUnavailableError" rfl,
    (C10_not_atomic_on_error envC10 (LLMClient.init defaultModel) [] "hello").1⟩

/-- Claim C9: when resuming the loop from a provider-supplied prompt
template, the first gateway request is issued with the second hardcoded
identifier `moonshotai/kimi-k2`, diverging from the configured default
`anthropic/claude-3-5-sonnet-20241022`, which is what all subsequent
gateway requests of the same loop use and what LLMClient.chat_completion
(hence the core loop, on every request) uses via the caller-configured
model attribute. -/
theorem C9_model_reset_divergence (env : Env) (messages : List Message)
    (replies : List (Except String AssistantMessage)) (tools : List MCPTool)
    (env2 : Env) (client : LLMClient) (replies2 : List (Except String AssistantMessage))
    (query : String)
    (hok : env.listTools = Except.ok tools) :
    promptResumeModel ≠ defaultModel ∧
    (LLMClient.init defaultModel).model = defaultModel ∧
    (∃ tr, (MCPClient.process_query_from_messages env messages replies).2.trace =
        Event.gateway promptResumeModel messages
          (toolsParam (ToolManager.get_tools_for_openai tools)) :: tr ∧
      ∀ ev ∈ tr, ∀ mo ms ts, ev = Event.gateway mo ms ts → mo = defaultModel) ∧
    (∀ ev ∈ (ChatProcessor.process_query env2 client replies2 query).2.trace,
      ∀ mo ms ts, ev = Event.gateway mo ms ts → mo = client.model) := by
  refine ⟨by decide, rfl, ?_, ?_⟩
  · unfold MCPClient.process_query_from_messages
    rw [hok]
    simp only
    unfold gatewayCall
    cases hrep : replies with
    | nil =>
        refine ⟨[], ?_, ?_⟩
        · simp [promptResumeModel]
        · intro ev hev
          simp at hev
    | cons r rest =>
        cases r with
        | error e =>
            refine ⟨[], ?_, ?_⟩
            · simp [promptResumeModel]
            · intro ev hev
              simp at hev
        | ok m =>
            simp only [List.nil_append]
            obtain ⟨tr2, htr2, hinv2⟩ :=
              clientIter_gateway_model env
                (ToolManager.get_tools_for_openai tools) 10 m
                ⟨"", messages, [],
                  [Event.gateway "moonshotai/kimi-k2" messages
                    (toolsParam (ToolManager.get_tools_for_openai tools))], rest⟩
            refine ⟨tr2, ?_, ?_⟩
            · rw [htr2]
              simp [promptResumeModel]
            · intro ev hev mo ms ts hg
              have := hinv2 ev hev mo ms ts hg
              rw [this]
              rfl
  · intro ev hev mo ms ts hg
    unfold ChatProcessor.process_query at hev
    cases hl : env2.listTools with
    | error e =>
        rw [hl] at hev
        simp at hev
    | ok tools2 =>
        rw [hl] at hev
        simp only at hev
        unfold execute_with_tools at hev
        obtain ⟨d, tr, hmo, hms, htr, hd, htrev, hcount, hhead⟩ :=
          execLoop_shape env2 (ToolManager.get_tools_for_openai tools2) 10
            ⟨(client.add_message "user" query).model,
              (client.add_message "user" query).messages, [], [], replies2⟩
        rw [htr] at hev
        have hev2 : ev ∈ tr := by
          simpa using hev
        rcases htrev ev hev2 with ⟨ms2, hg2⟩ | ⟨n, a, hg2⟩
        · rw [hg] at hg2
          cases hg2
          rfl
        · rw [hg] at hg2
          cases hg2

/-- Oracle environment for the C9 witness. -/
def envC9 : Env := ⟨Except.ok [], fun _ => none, fun _ _ => ⟨"", false⟩⟩

theorem C9_model_reset_divergence_witness :
    promptResumeModel ≠ defaultModel ∧
    (∃ tr, (MCPClient.process_query_from_messages envC9 [] []).2.trace =
        Event.gateway promptResumeModel []
          (toolsParam (ToolManager.get_tools_for_openai [])) :: tr ∧
      ∀ ev ∈ tr, ∀ mo ms ts, ev = Event.gateway mo ms ts → mo = defaultModel) :=
  ⟨(C9_model_reset_divergence envC9 [] [] [] envC9 (LLMClient.init defaultModel) [] "q" rfl).1,
   (C9_model_reset_divergence envC9 [] [] [] envC9 (LLMClient.init defaultModel) [] "q" rfl).2.2.1⟩

/-- Claim C3: when a reply requests tool calls, the full assistant
message (with the requests verbatim) is appended to the transcript
first, then each call is dispatched in the order listed, the resulting
tool messages land in the transcript in that exact order, and any
further gateway request happens only afterwards (the iteration does not
raise, and the next iteration's trace, if non-empty, starts with that
gateway event). -/
theorem C3_order_preservation (env : Env) (tools : List OpenAITool) (st : LoopState)
    (m : AssistantMessage) (rest : List (Except String AssistantMessage))
    (hr : st.replies = Except.ok m :: rest)
    (hne : m.tool_calls.isEmpty = false)
    (hdec : ∀ tc ∈ m.tool_calls, decodableArgs env tc = true) :
    (∃ st4, stepIter env tools st = StepOut.more st4) ∧
    (stepIter env tools st).state.messages =
      st.messages ++ m.model_dump :: m.tool_calls.map (toolMessageOf env) ∧
    (stepIter env tools st).state.trace =
      st.trace ++ Event.gateway st.model st.messages (toolsParam tools)
        :: m.tool_calls.map (invokeOf env) ∧
    (∀ fuel, ∃ tl, (execLoop env tools fuel (stepIter env tools st).state).2.trace =
        (stepIter env tools st).state.trace ++ tl ∧
      (tl = [] ∨ ∃ ms, tl.head? = some (Event.gateway st.model ms (toolsParam tools)))) := by
  have hstep : stepIter env tools st =
      ptcOut (processToolCalls env
        { appendContent
            { st with
              trace := st.trace ++ [Event.gateway st.model st.messages (toolsParam tools)],
              replies := rest } m with
          messages := (appendContent
            { st with
              trace := st.trace ++ [Event.gateway st.model st.messages (toolsParam tools)],
              replies := rest } m).messages ++ [m.model_dump] } m.tool_calls) := by
    unfold stepIter gatewayCall
    rw [hr]
    simp only
    exact afterReply_toolcalls env _ m hne
  rw [processToolCalls_ok env m.tool_calls _ hdec] at hstep
  refine ⟨⟨_, by rw [hstep]; rfl⟩, ?_, ?_, ?_⟩
  · rw [hstep, ptcOut_state]
    simp only [ptcState]
    simp [appendContent_messages]
  · rw [hstep, ptcOut_state]
    simp only [ptcState]
    simp [appendContent_trace]
  · intro fuel
    rw [hstep, ptcOut_state]
    simp only [ptcState]
    obtain ⟨d2, tl, hmo2, hms2, htr2, hd2, htrev2, hcount2, hhead2⟩ :=
      execLoop_shape env tools fuel _
    refine ⟨tl, htr2, ?_⟩
    rcases hhead2 with h | ⟨ms2, h⟩
    · exact Or.inl h
    · refine Or.inr ⟨ms2, ?_⟩
      rw [h]
      simp [appendContent_model]

/-- Oracle environment for the C3 witness. -/
def envC3 : Env := ⟨Except.ok [], fun _ => some ⟨"d"⟩, fun n _ => ⟨"r-" ++ n, false⟩⟩

/-- Assistant reply for the C3 witness: three tool calls A, B, C. -/
def mC3 : AssistantMessage :=
  ⟨some "text",
    [⟨"idA", "A", ToolArgs.structured ⟨"a"⟩⟩,
     ⟨"idB", "B", ToolArgs.text "argB"⟩,
     ⟨"idC", "C", ToolArgs.structured ⟨"c"⟩⟩]⟩

/-- Loop state for the C3 witness. -/
def stC3 : LoopState := ⟨defaultModel, [], [], [], [Except.ok mC3]⟩

theorem C3_order_preservation_witness :
    (∃ st4, stepIter envC3 [] stC3 = StepOut.more st4) ∧
    (stepIter envC3 [] stC3).state.messages =
      stC3.messages ++ mC3.model_dump :: mC3.tool_calls.map (toolMessageOf envC3) ∧
    (stepIter envC3 [] stC3).state.trace =
      stC3.trace ++ Event.gateway stC3.model stC3.messages (toolsParam [])
        :: mC3.tool_calls.map (invokeOf envC3) ∧
    (∀ fuel, ∃ tl, (execLoop envC3 [] fuel (stepIter envC3 [] stC3).state).2.trace =
        (stepIter envC3 [] stC3).state.trace ++ tl ∧
      (tl = [] ∨ ∃ ms, tl.head? = some (Event.gateway stC3.model ms (toolsParam [])))) :=
  C3_order_preservation envC3 [] stC3 mC3 [] rfl rfl (by decide)

/-- Claim C1 (amended): a provider-reported tool-execution failure for
call B in a reply requesting [A, B, C] is contained — the iteration does
not raise, C is still dispatched, and B's stringified result content
(error or not: the code never reads the error flag) is recorded as a
tool message with B's correlation id. -/
theorem C1_provider_failure_contained (env : Env) (tools : List OpenAITool) (st : LoopState)
    (m : AssistantMessage) (rest : List (Except String AssistantMessage)) (a b c : ToolCall)
    (hr : st.replies = Except.ok m :: rest)
    (htc : m.tool_calls = [a, b, c])
    (hdec : ∀ tc ∈ m.tool_calls, decodableArgs env tc = true)
    (_hberr : (env.callTool b.name (decodedOf env b)).isError = true) :
    (∃ st4, stepIter env tools st = StepOut.more st4) ∧
    invokeOf env c ∈ (stepIter env tools st).state.trace ∧
    toolMessageOf env b ∈ (stepIter env tools st).state.messages ∧
    (toolMessageOf env b).content = some (env.callTool b.name (decodedOf env b)).content := by
  have hne : m.tool_calls.isEmpty = false := by
    rw [htc]
    rfl
  have hstep : stepIter env tools st =
      ptcOut (processToolCalls env
        { appendContent
            { st with
              trace := st.trace ++ [Event.gateway st.model st.messages (toolsParam tools)],
              replies := rest } m with
          messages := (appendContent
            { st with
              trace := st.trace ++ [Event.gateway st.model st.messages (toolsParam tools)],
              replies := rest } m).messages ++ [m.model_dump] } m.tool_calls) := by
    unfold stepIter gatewayCall
    rw [hr]
    simp only
    exact afterReply_toolcalls env _ m hne
  rw [processToolCalls_ok env m.tool_calls _ hdec] at hstep
  refine ⟨⟨_, by rw [hstep]; rfl⟩, ?_, ?_, rfl⟩
  · rw [hstep, ptcOut_state]
    simp only [ptcState]
    rw [htc]
    simp
  · rw [hstep, ptcOut_state]
    simp only [ptcState]
    rw [htc]
    simp

/-- Oracle environment for the C1 witness: tool B fails
provider-side (is_error true), A and C succeed. -/
def envC1w : Env :=
  ⟨Except.ok [], fun _ => some ⟨"d"⟩,
    fun n _ => if n = "toolB" then ⟨"boom", true⟩ else ⟨"fine", false⟩⟩

/-- Assistant reply for the C1 witness. -/
def mC1w : AssistantMessage :=
  ⟨some "text",
    [⟨"idA", "toolA", ToolArgs.structured ⟨"a"⟩⟩,
     ⟨"idB", "toolB", ToolArgs.structured ⟨"b"⟩⟩,
     ⟨"idC", "toolC", ToolArgs.structured ⟨"c"⟩⟩]⟩

/-- Loop state for the C1 witness. -/
def stC1w : LoopState := ⟨defaultModel, [], [], [], [Except.ok mC1w]⟩

theorem C1_provider_failure_contained_witness :
    (∃ st4, stepIter envC1w [] stC1w = StepOut.more st4) ∧
    invokeOf envC1w ⟨"idC", "toolC", ToolArgs.structured ⟨"c"⟩⟩ ∈
      (stepIter envC1w [] stC1w).state.trace ∧
    toolMessageOf envC1w ⟨"idB", "toolB", ToolArgs.structured ⟨"b"⟩⟩ ∈
      (stepIter envC1w [] stC1w).state.messages ∧
    (toolMessageOf envC1w ⟨"idB", "toolB", ToolArgs.structured ⟨"b"⟩⟩).content =
      some (envC1w.callTool "toolB" (decodedOf envC1w
        ⟨"idB", "toolB", ToolArgs.structured ⟨"b"⟩⟩)).content :=
  C1_provider_failure_contained envC1w [] stC1w mC1w []
    ⟨"idA", "toolA", ToolArgs.structured ⟨"a"⟩⟩
    ⟨"idB", "toolB", ToolArgs.structured ⟨"b"⟩⟩
    ⟨"idC", "toolC", ToolArgs.structured ⟨"c"⟩⟩
    rfl rfl (by decide) (by decide)

/-- Oracle environment for the C1 counterexample: no argument string
decodes (json.loads raises). -/
def envC1 : Env := ⟨Except.ok [], fun _ => none, fun _ _ => ⟨"ok", false⟩⟩

/-- Scripted replies for the C1 counterexample: one reply requesting
[A, B, C] where B's string-encoded arguments are malformed. -/
def repliesC1 : List (Except String AssistantMessage) :=
  [Except.ok ⟨some "t",
    [⟨"idA", "toolA", ToolArgs.structured ⟨"a1"⟩⟩,
     ⟨"idB", "toolB", ToolArgs.text "oops"⟩,
     ⟨"idC", "toolC", ToolArgs.structured ⟨"c1"⟩⟩]⟩]

/-- Claim C1 counterexample: when call B's string-encoded arguments fail
to decode, the loop raises (the decode error escapes process_query), no
error tool message is recorded for B, and C is never dispatched —
refuting the claim that a decode failure local to B is recovered
locally. -/
theorem C1_decode_failure_aborts :
    (ChatProcessor.process_query envC1 (LLMClient.init defaultModel) repliesC1 "q").1 =
      Except.error "JSONDecodeError: oops" ∧
    Event.invoke "toolA" ⟨"a1"⟩ ∈
      (ChatProcessor.process_query envC1 (LLMClient.init defaultModel) repliesC1 "q").2.trace ∧
    Event.invoke "toolC" ⟨"c1"⟩ ∉
      (ChatProcessor.process_query envC1 (LLMClient.init defaultModel) repliesC1 "q").2.trace ∧
    (∀ msg ∈ (ChatProcessor.process_query envC1
        (LLMClient.init defaultModel) repliesC1 "q").2.messages,
      msg.tool_call_id ≠ some "idB") ∧
    (∀ msg ∈ (ChatProcessor.process_query envC1
        (LLMClient.init defaultModel) repliesC1 "q").2.messages,
      msg.tool_call_id ≠ some "idC") := by
  decide

/-- The single-system-message invariant: system messages occur only as
the first transcript entry (hence at most one exists and, if present,
it is first). -/
def sysTailFree (msgs : List Message) : Prop := ∀ x ∈ msgs.tail, x.role ≠ "system"

theorem sysTailFree_append (msgs delta : List Message) (h : sysTailFree msgs)
    (hd : ∀ x ∈ delta, x.role ≠ "system") : sysTailFree (msgs ++ delta) := by
  intro x hx
  cases msgs with
  | nil =>
      simp only [List.nil_append] at hx
      exact hd x (List.mem_of_mem_tail hx)
  | cons mh mt =>
      simp only [List.cons_append, List.tail_cons] at hx
      rcases List.mem_append.mp hx with hx | hx
      · exact h x (by simpa using hx)
      · exact hd x hx

/-- Computation rule for LLMClient.clear_history on the message list. -/
theorem clear_history_messages (c : LLMClient) :
    c.clear_history.messages = match c.messages with
      | m :: _ => if m.role = "system" then [m] else []
      | [] => [] := by
  unfold LLMClient.clear_history
  cases c.messages with
  | nil => rfl
  | cons mh mt => by_cases hrole : mh.role = "system" <;> simp [hrole]

theorem clear_history_model (c : LLMClient) : c.clear_history.model = c.model := by
  unfold LLMClient.clear_history
  cases c.messages with
  | nil => rfl
  | cons mh mt => by_cases hrole : mh.role = "system" <;> simp [hrole]

theorem llmclientFieldsEq {a b : LLMClient} (h1 : a.model = b.model)
    (h2 : a.messages = b.messages) : a = b := by
  cases a
  cases b
  simp only at h1 h2
  rw [h1, h2]

/-- Claim C4 (amended): the constructor installs exactly one system
message as the first transcript entry; the operations the orchestration
engine performs (appending the user message, assistant dumps and tool
results, and clear_history) preserve the invariant that system messages
occur only at the head. -/
theorem C4_system_message_invariant (env : Env) (client : LLMClient)
    (replies : List (Except String AssistantMessage)) (query model : String)
    (h : sysTailFree client.messages) :
    (LLMClient.init model).messages.map Message.role = ["system"] ∧
    sysTailFree (LLMClient.init model).messages ∧
    sysTailFree (ChatProcessor.process_query env client replies query).2.messages ∧
    sysTailFree client.clear_history.messages := by
  refine ⟨rfl, ?_, ?_, ?_⟩
  · intro x hx
    simp [LLMClient.init] at hx
  · unfold ChatProcessor.process_query
    cases hl : env.listTools with
    | error e =>
        simp only
        exact sysTailFree_append client.messages [⟨"user", some query, none, []⟩] h
          (by
            intro x hx
            rcases List.mem_singleton.mp hx with rfl
            simp)
    | ok tools =>
        simp only
        unfold execute_with_tools
        obtain ⟨d, tr, hmo, hms, htr, hd, htrev, hcount, hhead⟩ :=
          execLoop_shape env (ToolManager.get_tools_for_openai tools) 10
            ⟨(client.add_message "user" query).model,
              (client.add_message "user" query).messages, [], [], replies⟩
        have hms2 : (execLoop env (ToolManager.get_tools_for_openai tools) 10
            ⟨(client.add_message "user" query).model,
              (client.add_message "user" query).messages, [], [], replies⟩).2.messages =
            (client.messages ++ [⟨"user", some query, none, []⟩]) ++ d := hms
        rw [hms2]
        apply sysTailFree_append
        · exact sysTailFree_append client.messages _ h
            (by
              intro x hx
              rcases List.mem_singleton.mp hx with rfl
              simp)
        · intro x hx
          rcases hd x hx with h1 | h1 <;> rw [h1] <;> decide
  · rw [sysTailFree, clear_history_messages client]
    cases client.messages with
    | nil =>
        intro x hx
        simp at hx
    | cons mh mt =>
        by_cases hrole : mh.role = "system" <;>
          simp only [hrole, if_pos, if_neg, if_true, if_false] <;>
          intro x hx <;> simp at hx

/-- Oracle environment for the C4 witness. -/
def envC4 : Env := ⟨Except.ok [], fun _ => none, fun _ _ => ⟨"", false⟩⟩

theorem C4_system_message_invariant_witness :
    (LLMClient.init defaultModel).messages.map Message.role = ["system"] ∧
    sysTailFree (LLMClient.init defaultModel).messages ∧
    sysTailFree (ChatProcessor.process_query envC4 (LLMClient.init defaultModel)
      [Except.ok ⟨some "hi", []⟩] "q").2.messages ∧
    sysTailFree (LLMClient.init defaultModel).clear_history.messages :=
  C4_system_message_invariant envC4 (LLMClient.init defaultModel)
    [Except.ok ⟨some "hi", []⟩] "q" defaultModel
    (by intro x hx; simp [LLMClient.init] at hx)

/-- Claim C4 counterexample: the store has no initialize guard — calling
the public add_message with role `system` on the already-initialized
transcript silently yields a second system message instead of failing
with InvalidStateError, so the claimed invariant over every reachable
transcript state fails. -/
theorem C4_second_system_message :
    ((((LLMClient.init defaultModel).add_message "system" "again").messages.filter
      (fun x => x.role == "system")).length = 2) ∧
    (((LLMClient.init defaultModel).add_message "system" "again").messages.getLast?.map
      Message.role = some "system") := by
  decide

/-- Claim C5: for every tool message appended by the orchestration loop
(positions at or past the loop-entry transcript length), a preceding
assistant message in the same transcript carries a tool-call request
whose id matches the tool message's correlation id. -/
theorem C5_tool_message_correlation (env : Env) (client : LLMClient)
    (replies : List (Except String AssistantMessage)) (query : String) :
    linkedAfter (client.messages.length + 1)
      (ChatProcessor.process_query env client replies query).2.messages := by
  unfold ChatProcessor.process_query
  cases hl : env.listTools with
  | error e =>
      simp only
      apply linkedAfter_of_length_le
      simp [LLMClient.add_message]
  | ok tools =>
      simp only
      unfold execute_with_tools
      apply execLoop_linked
      apply linkedAfter_of_length_le
      simp [LLMClient.add_message]

/-- Oracle environment for the C5 witness: one tool call produces one
tool message preceded by its assistant request. -/
def envC5 : Env := ⟨Except.ok [], fun _ => some ⟨"d"⟩, fun n _ => ⟨"res-" ++ n, false⟩⟩

theorem C5_tool_message_correlation_witness :
    linkedAfter ((LLMClient.init defaultModel).messages.length + 1)
      (ChatProcessor.process_query envC5 (LLMClient.init defaultModel)
        [Except.ok ⟨some "t", [⟨"id1", "get_forecast", ToolArgs.text "coords"⟩]⟩,
         Except.ok ⟨some "done", []⟩] "weather?").2.messages :=
  C5_tool_message_correlation envC5 (LLMClient.init defaultModel)
    [Except.ok ⟨some "t", [⟨"id1", "get_forecast", ToolArgs.text "coords"⟩]⟩,
     Except.ok ⟨some "done", []⟩] "weather?"

/-- Claim C8 (amended): reset (LLMClient.clear_history) is idempotent in
every state, and in every state satisfying the system-messages-only-
at-the-head invariant it removes all messages except the system message
if one exists. -/
theorem C8_reset_idempotent (c : LLMClient) :
    c.clear_history.clear_history = c.clear_history ∧
    (sysTailFree c.messages →
      c.clear_history.messages = c.messages.filter (fun x => x.role == "system")) := by
  constructor
  · refine llmclientFieldsEq (clear_history_model _) ?_
    rw [clear_history_messages (c.clear_history), clear_history_messages c]
    cases c.messages with
    | nil => rfl
    | cons mh mt => by_cases hrole : mh.role = "system" <;> simp [hrole]
  · intro h
    rw [clear_history_messages c]
    cases hm : c.messages with
    | nil => rfl
    | cons mh mt =>
        have hmt : mt.filter (fun x => x.role == "system") = [] := by
          rw [List.filter_eq_nil_iff]
          intro x hx
          have hx2 : x ∈ c.messages.tail := by
            rw [hm]
            simpa using hx
          have := h x hx2
          simpa using this
        by_cases hrole : mh.role = "system"
        · simp [hrole, hmt]
        · simp [hrole, hmt]

theorem C8_reset_idempotent_witness :
    (LLMClient.init defaultModel).clear_history.clear_history =
      (LLMClient.init defaultModel).clear_history ∧
    (LLMClient.init defaultModel).clear_history.messages =
      (LLMClient.init defaultModel).messages.filter (fun x => x.role == "system") :=
  ⟨(C8_reset_idempotent (LLMClient.init defaultModel)).1,
   (C8_reset_idempotent (LLMClient.init defaultModel)).2
     (by intro x hx; simp [LLMClient.init] at hx)⟩

/-- Claim C8 counterexample: in the transcript state [user, system] — a
state the public, unvalidated store operations can produce — a system
message exists, yet clear_history removes every message including it,
because the source only preserves messages[0] and only when that first
entry is a system message. -/
theorem C8_reset_drops_displaced_system :
    (((LLMClient.mk defaultModel
        [⟨"user", some "hi", none, []⟩, ⟨"system", some "sys", none, []⟩]).messages.filter
      (fun x => x.role == "system")).length = 1) ∧
    ((LLMClient.mk defaultModel
        [⟨"user", some "hi", none, []⟩,
         ⟨"system", some "sys", none, []⟩]).clear_history).messages = [] := by
  decide

theorem appendContent_finalText (st : LoopState) (m : AssistantMessage) :
    (appendContent st m).finalText = match m.content with
      | some s => if s.isEmpty then st.finalText else st.finalText ++ [s]
      | none => st.finalText := by
  unfold appendContent
  cases m.content with
  | none => rfl
  | some s => by_cases hs : s.isEmpty <;> simp [hs]

theorem loopstateFieldsEq {a b : LoopState} (h1 : a.model = b.model)
    (h2 : a.messages = b.messages) (h3 : a.finalText = b.finalText)
    (h4 : a.trace = b.trace) (h5 : a.replies = b.replies) : a = b := by
  cases a
  cases b
  simp only at h1 h2 h3 h4 h5
  rw [h1, h2, h3, h4, h5]

/-- Two-reply scenario at the loop level: first reply one tool call with
truthy text, second reply text only — the loop returns the join of the
first text, the trace line, and the second text, after exactly two
gateway requests. -/
theorem execLoop_two_reply_scenario (env : Env) (atools : List OpenAITool)
    (st0 : LoopState) (t1 t2 cid nm : String) (args : ToolArgs)
    (hrep : st0.replies =
      [Except.ok ⟨some t1, [⟨cid, nm, args⟩]⟩, Except.ok ⟨some t2, []⟩])
    (hft : st0.finalText = []) (htrace : st0.trace = [])
    (ht1 : t1.isEmpty = false) (ht2 : t2.isEmpty = false)
    (hdec : decodableArgs env ⟨cid, nm, args⟩ = true) :
    (execLoop env atools 10 st0).1 =
      Except.ok (String.intercalate "\n" [t1, traceLineOf env ⟨cid, nm, args⟩, t2]) ∧
    ((execLoop env atools 10 st0).2.trace.countP (fun ev => isGatewayEvent ev)) = 2 := by
  have hne1 : (⟨some t1, [⟨cid, nm, args⟩]⟩ : AssistantMessage).tool_calls.isEmpty = false := rfl
  have hdec1 : ∀ t ∈ (⟨some t1, [⟨cid, nm, args⟩]⟩ : AssistantMessage).tool_calls,
      decodableArgs env t = true := by
    intro t ht
    have ht3 : t = ⟨cid, nm, args⟩ := by simpa using ht
    rw [ht3]
    exact hdec
  have hstep1 : stepIter env atools st0 =
      ptcOut (processToolCalls env
        { appendContent
            { st0 with
              trace := st0.trace ++ [Event.gateway st0.model st0.messages (toolsParam atools)],
              replies := [Except.ok ⟨some t2, []⟩] } ⟨some t1, [⟨cid, nm, args⟩]⟩ with
          messages := (appendContent
            { st0 with
              trace := st0.trace ++ [Event.gateway st0.model st0.messages (toolsParam atools)],
              replies := [Except.ok ⟨some t2, []⟩] }
              ⟨some t1, [⟨cid, nm, args⟩]⟩).messages ++
            [(⟨some t1, [⟨cid, nm, args⟩]⟩ : AssistantMessage).model_dump] }
        (⟨some t1, [⟨cid, nm, args⟩]⟩ : AssistantMessage).tool_calls) := by
    unfold stepIter gatewayCall
    rw [hrep]
    simp only
    exact afterReply_toolcalls env _ _ hne1
  rw [processToolCalls_ok env _ _ hdec1] at hstep1
  have hstepX : stepIter env atools st0 = StepOut.more
      ⟨st0.model,
       st0.messages ++ [(⟨some t1, [⟨cid, nm, args⟩]⟩ : AssistantMessage).model_dump,
         toolMessageOf env ⟨cid, nm, args⟩],
       [t1, traceLineOf env ⟨cid, nm, args⟩],
       [Event.gateway st0.model st0.messages (toolsParam atools),
         invokeOf env ⟨cid, nm, args⟩],
       [Except.ok ⟨some t2, []⟩]⟩ := by
    rw [hstep1]
    show StepOut.more _ = _
    congr 1
    refine loopstateFieldsEq ?_ ?_ ?_ ?_ ?_
    · simp [appendContent_model]
    · simp [appendContent_messages]
    · simp [appendContent_finalText, ht1, hft]
    · simp [appendContent_trace, htrace]
    · simp [appendContent_replies]
  have hstep2 : stepIter env atools
      ⟨st0.model,
       st0.messages ++ [(⟨some t1, [⟨cid, nm, args⟩]⟩ : AssistantMessage).model_dump,
         toolMessageOf env ⟨cid, nm, args⟩],
       [t1, traceLineOf env ⟨cid, nm, args⟩],
       [Event.gateway st0.model st0.messages (toolsParam atools),
         invokeOf env ⟨cid, nm, args⟩],
       [Except.ok ⟨some t2, []⟩]⟩ =
      StepOut.done (String.intercalate "\n" [t1, traceLineOf env ⟨cid, nm, args⟩, t2])
        ⟨st0.model,
         (st0.messages ++ [(⟨some t1, [⟨cid, nm, args⟩]⟩ : AssistantMessage).model_dump,
           toolMessageOf env ⟨cid, nm, args⟩]) ++
           [(⟨some t2, []⟩ : AssistantMessage).model_dump],
         [t1, traceLineOf env ⟨cid, nm, args⟩, t2],
         [Event.gateway st0.model st0.messages (toolsParam atools),
           invokeOf env ⟨cid, nm, args⟩,
           Event.gateway st0.model
             (st0.messages ++ [(⟨some t1, [⟨cid, nm, args⟩]⟩ : AssistantMessage).model_dump,
               toolMessageOf env ⟨cid, nm, args⟩]) (toolsParam atools)],
         []⟩ := by
    unfold stepIter gatewayCall
    simp only
    rw [afterReply_done env _ ⟨some t2, []⟩ rfl]
    congr 1
    · simp [appendContent_finalText, ht2]
    · refine loopstateFieldsEq ?_ ?_ ?_ ?_ ?_
      · simp [appendContent_model]
      · simp [appendContent_messages]
      · simp [appendContent_finalText, ht2]
      · simp [appendContent_trace]
      · simp [appendContent_replies]
  have h101 : execLoop env atools 10 st0 = execLoop env atools 9
      ⟨st0.model,
       st0.messages ++ [(⟨some t1, [⟨cid, nm, args⟩]⟩ : AssistantMessage).model_dump,
         toolMessageOf env ⟨cid, nm, args⟩],
       [t1, traceLineOf env ⟨cid, nm, args⟩],
       [Event.gateway st0.model st0.messages (toolsParam atools),
         invokeOf env ⟨cid, nm, args⟩],
       [Except.ok ⟨some t2, []⟩]⟩ := by
    have e10 : execLoop env atools 10 st0 = execLoop env atools (Nat.succ 9) st0 := rfl
    rw [e10]
    simp only [execLoop, hstepX]
  have h92 : execLoop env atools 9
      ⟨st0.model,
       st0.messages ++ [(⟨some t1, [⟨cid, nm, args⟩]⟩ : AssistantMessage).model_dump,
         toolMessageOf env ⟨cid, nm, args⟩],
       [t1, traceLineOf env ⟨cid, nm, args⟩],
       [Event.gateway st0.model st0.messages (toolsParam atools),
         invokeOf env ⟨cid, nm, args⟩],
       [Except.ok ⟨some t2, []⟩]⟩ =
      (Except.ok (String.intercalate "\n" [t1, traceLineOf env ⟨cid, nm, args⟩, t2]),
        ⟨st0.model,
         (st0.messages ++ [(⟨some t1, [⟨cid, nm, args⟩]⟩ : AssistantMessage).model_dump,
           toolMessageOf env ⟨cid, nm, args⟩]) ++
           [(⟨some t2, []⟩ : AssistantMessage).model_dump],
         [t1, traceLineOf env ⟨cid, nm, args⟩, t2],
         [Event.gateway st0.model st0.messages (toolsParam atools),
           invokeOf env ⟨cid, nm, args⟩,
           Event.gateway st0.model
             (st0.messages ++ [(⟨some t1, [⟨cid, nm, args⟩]⟩ : AssistantMessage).model_dump,
               toolMessageOf env ⟨cid, nm, args⟩]) (toolsParam atools)],
         []⟩) := by
    have e9 : execLoop env atools 9
        ⟨st0.model,
         st0.messages ++ [(⟨some t1, [⟨cid, nm, args⟩]⟩ : AssistantMessage).model_dump,
           toolMessageOf env ⟨cid, nm, args⟩],
         [t1, traceLineOf env ⟨cid, nm, args⟩],
         [Event.gateway st0.model st0.messages (toolsParam atools),
           invokeOf env ⟨cid, nm, args⟩],
         [Except.ok ⟨some t2, []⟩]⟩ = execLoop env atools (Nat.succ 8)
        ⟨st0.model,
         st0.messages ++ [(⟨some t1, [⟨cid, nm, args⟩]⟩ : AssistantMessage).model_dump,
           toolMessageOf env ⟨cid, nm, args⟩],
         [t1, traceLineOf env ⟨cid, nm, args⟩],
         [Event.gateway st0.model st0.messages (toolsParam atools),
           invokeOf env ⟨cid, nm, args⟩],
         [Except.ok ⟨some t2, []⟩]⟩ := rfl
    rw [e9]
    simp only [execLoop, hstep2]
  constructor
  · rw [h101, h92]
  · rw [h101, h92]
    simp [List.countP_cons, isGatewayEvent, invokeOf]

/-- Claim C6: a first reply requesting exactly one tool call with truthy
text, a successful tool, and a terminating second reply with text make
process_query run exactly two iterations (two gateway requests) and
return the newline-joined concatenation of the first reply's text, the
one trace line for the tool call and its arguments, and the second
reply's text, in that order. -/
theorem C6_scenario_two_iterations (env : Env) (client : LLMClient)
    (query t1 t2 cid nm : String) (args : ToolArgs) (tools : List MCPTool)
    (hlt : env.listTools = Except.ok tools)
    (ht1 : t1.isEmpty = false) (ht2 : t2.isEmpty = false)
    (hdec : decodableArgs env ⟨cid, nm, args⟩ = true)
    (_hsucc : (env.callTool nm (decodedOf env ⟨cid, nm, args⟩)).isError = false) :
    (ChatProcessor.process_query env client
        [Except.ok ⟨some t1, [⟨cid, nm, args⟩]⟩, Except.ok ⟨some t2, []⟩] query).1 =
      Except.ok (String.intercalate "\n" [t1, traceLineOf env ⟨cid, nm, args⟩, t2]) ∧
    ((ChatProcessor.process_query env client
        [Except.ok ⟨some t1, [⟨cid, nm, args⟩]⟩,
         Except.ok ⟨some t2, []⟩] query).2.trace.countP
      (fun ev => isGatewayEvent ev)) = 2 := by
  have h0 : ChatProcessor.process_query env client
      [Except.ok ⟨some t1, [⟨cid, nm, args⟩]⟩, Except.ok ⟨some t2, []⟩] query =
      execLoop env (ToolManager.get_tools_for_openai tools) 10
        ⟨(client.add_message "user" query).model,
         (client.add_message "user" query).messages, [], [],
         [Except.ok ⟨some t1, [⟨cid, nm, args⟩]⟩, Except.ok ⟨some t2, []⟩]⟩ := by
    unfold ChatProcessor.process_query execute_with_tools
    rw [hlt]
  rw [h0]
  exact execLoop_two_reply_scenario env _ _ t1 t2 cid nm args rfl rfl rfl ht1 ht2 hdec

/-- Oracle environment for the C6 witness: the argument text decodes to
a structured mapping and the tool succeeds with text content. -/
def envC6 : Env :=
  ⟨Except.ok [], fun _ => some ⟨"lat-40.7-lon-74.0"⟩, fun _ _ => ⟨"forecast data", false⟩⟩

theorem C6_scenario_two_iterations_witness :
    (ChatProcessor.process_query envC6 (LLMClient.init defaultModel)
        [Except.ok ⟨some "Let me check",
          [⟨"id1", "get_forecast", ToolArgs.text "coords"⟩]⟩,
         Except.ok ⟨some "Here is the forecast", []⟩] "weather?").1 =
      Except.ok (String.intercalate "\n"
        ["Let me check",
         traceLineOf envC6 ⟨"id1", "get_forecast", ToolArgs.text "coords"⟩,
         "Here is the forecast"]) ∧
    ((ChatProcessor.process_query envC6 (LLMClient.init defaultModel)
        [Except.ok ⟨some "Let me check",
          [⟨"id1", "get_forecast", ToolArgs.text "coords"⟩]⟩,
         Except.ok ⟨some "Here is the forecast", []⟩] "weather?").2.trace.countP
      (fun ev => isGatewayEvent ev)) = 2 :=
  C6_scenario_two_iterations envC6 (LLMClient.init defaultModel)
    "weather?" "Let me check" "Here is the forecast" "id1" "get_forecast"
    (ToolArgs.text "coords") [] rfl (by decide) (by decide) (by decide) (by decide)
